import Mathlib

/-!
Verification of `kornia/sensors/camera/distortion_model.py` (camera lens
distortion models).  We shallow-embed the three transform classes
(`AffineTransform`, `BrownConradyTransform`, `KannalaBrandtK3Transform`)
over an arbitrary field `K` (instantiated at `ℚ` for executable checks and
at `ℝ` where real analysis is needed).  A parameter tensor's trailing axis
is modelled as a `List K`; `params[..., i]` becomes `tindex params i`.
Methods that `raise NotImplementedError` return `Except PyError`;
`BrownConradyTransform.unproject`, whose Python body ends without a
`return` statement, returns an `Option`.
-/

/-- The 2D point/vector abstraction (`kornia.geometry.vector.Vector2`):
a coordinate pair with `x`/`y` accessors. -/
structure Vector2 (K : Type) where
  x : K
  y : K
deriving DecidableEq, Repr

/-- Models `Vector2.from_coords(x, y)`. -/
def Vector2.from_coords {K : Type} (x y : K) : Vector2 K := ⟨x, y⟩

/-- Componentwise subtraction of points (tensor broadcasting `-` used by
`project(...) - uv_normalized` in `unproject`). -/
def Vector2.sub {K : Type} [Field K] (p q : Vector2 K) : Vector2 K :=
  ⟨p.x - q.x, p.y - q.y⟩

/-- Models indexing a parameter tensor along its trailing axis,
`params[..., i]`. -/
def tindex {K : Type} [Field K] (params : List K) (i : Nat) : K :=
  params.getD i 0

/-- The error signalled by unimplemented operations (`raise NotImplementedError`). -/
inductive PyError where
  | notImplementedError
deriving DecidableEq, Repr

/-- `AffineTransform.distort`: `u = x*fx + cx`, `v = y*fy + cy` with
`fx, fy, cx, cy = params[..., 0..3]`. -/
def AffineTransform.distort {K : Type} [Field K] (params : List K)
    (points : Vector2 K) : Vector2 K :=
  let fx := tindex params 0
  let fy := tindex params 1
  let cx := tindex params 2
  let cy := tindex params 3
  let u := points.x * fx + cx
  let v := points.y * fy + cy
  Vector2.from_coords u v

/-- `AffineTransform.undistort`: `x = (u - cx)/fx`, `y = (v - cy)/fy`. -/
def AffineTransform.undistort {K : Type} [Field K] (params : List K)
    (points : Vector2 K) : Vector2 K :=
  let fx := tindex params 0
  let fy := tindex params 1
  let cx := tindex params 2
  let cy := tindex params 3
  let x := (points.x - cx) / fx
  let y := (points.y - cy) / fy
  Vector2.from_coords x y

/-- `BrownConradyTransform.project`: radial (rational) plus tangential
distortion with coefficients `[k1, k2, p1, p2, k3, k4, k5, k6]` read from
`distortion_params[..., 0..7]`. -/
def BrownConradyTransform.project {K : Type} [Field K]
    (distortion_params : List K) (points : Vector2 K) : Vector2 K :=
  let x := points.x
  let y := points.y
  let k1 := tindex distortion_params 0
  let k2 := tindex distortion_params 1
  let p1 := tindex distortion_params 2
  let p2 := tindex distortion_params 3
  let k3 := tindex distortion_params 4
  let k4 := tindex distortion_params 5
  let k5 := tindex distortion_params 6
  let k6 := tindex distortion_params 7
  let r2 := x * x + y * y
  let r4 := r2 * r2
  let r6 := r4 * r2
  let a1 := 2 * x * y
  let a2 := r2 + 2 * x * x
  let a3 := r2 + 2 * y * y
  let cdist := 1 + k1 * r2 + k2 * r4 + k3 * r6
  let icdist := 1 / (1 + k4 * r2 + k5 * r4 + k6 * r6)
  let xd0 := x * cdist * icdist + p1 * a1 + p2 * a2
  let yd0 := y * cdist * icdist + p1 * a3 + p2 * a1
  Vector2.from_coords xd0 yd0

/-- The Jacobian entries `(du_dx, du_dy, dv_dx, dv_dy)` computed inside the
loop body of `BrownConradyTransform.unproject` (the `c0 … c20` chain).
The source indexes the coefficient tensor as `d[2]` (raw positional index)
in `dv_dx` and `dv_dy` where the other entries use `d[..., 2]`; for the
unbatched trailing-axis model these coincide, so both are `tindex d 2`. -/
def BrownConradyTransform.unprojectJacobian {K : Type} [Field K]
    (d : List K) (a b : K) : K × K × K × K :=
  let c0 := a * a
  let c1 := b * b
  let c2 := c0 + c1
  let c3 := c2 * c2
  let c4 := c3 * c2
  let c5 := c2 * tindex d 5 + c3 * tindex d 6 + c4 * tindex d 7 + 1
  let c6 := c5 * c5
  let c7 := 1 / c6
  let c8 := a * tindex d 3
  let c9 := 2 * tindex d 2
  let c10 := 2 * c2
  let c11 := 3 * c3
  let c12 := c2 * tindex d 0
  let c13 := c3 * tindex d 1
  let c14 := c4 * tindex d 4
  let c15 := 2 * (c10 * tindex d 6 + c11 * tindex d 7 + tindex d 5) * (c12 + c13 + c14 + 1)
  let c16 := 2 * c10 * tindex d 1 + 2 * c11 * tindex d 4 + 2 * tindex d 0
  let c17 := 1 * c12 + 1 * c13 + 1 * c14 + 1
  let c18 := b * tindex d 3
  let c19 := a * b
  let c20 := -c15 * c19 + c16 * c19 * c15
  let du_dx := c7 * (-c0 * c15 + c5 * (c0 * c16 + c17) + c6 * (b * c9 + 6 * c8))
  let du_dy := c7 * (c20 + c6 * (a * c9 + 2 * c18))
  let dv_dx := c7 * (c20 + c6 * (2 * a * tindex d 2 + 2 * c18))
  let dv_dy := c7 * (-c1 * c15 + c5 * (c1 * c16 + c17) + c6 * (6 * b * tindex d 2 + 2 * c8))
  (du_dx, du_dy, dv_dx, dv_dy)

/-- One pass of the `for i in range(50)` loop body of
`BrownConradyTransform.unproject`.  The body binds the residual `f_xy` and
the four Jacobian entries to local names but contains no assignment back to
`xy`, so the estimate it hands to the next iteration is unchanged. -/
def BrownConradyTransform.unprojectStep {K : Type} [Field K]
    (distortion_params : List K) (uv_normalized : Vector2 K)
    (xy : Vector2 K) : Vector2 K :=
  let x := xy.x
  let y := xy.y
  let f_xy :=
    (BrownConradyTransform.project distortion_params
      (Vector2.from_coords x y)).sub uv_normalized
  let jac := BrownConradyTransform.unprojectJacobian distortion_params x y
  let _ := f_xy
  let _ := jac
  xy

/-- `BrownConradyTransform.unproject`: starts from `xy = uv_normalized.data`
and runs the loop body 50 times; the function body ends without a `return`
statement, so the Python call evaluates to `None` (`none` here). -/
def BrownConradyTransform.unproject {K : Type} [Field K]
    (distortion_params : List K) (uv_normalized : Vector2 K) :
    Option (Vector2 K) :=
  let xy := uv_normalized
  let final :=
    (BrownConradyTransform.unprojectStep distortion_params uv_normalized)^[50] xy
  let _ := final
  none

/-- `BrownConradyTransform.distort`: `raise NotImplementedError`. -/
def BrownConradyTransform.distort {K : Type} [Field K] (params : List K)
    (points : Vector2 K) : Except PyError (Vector2 K) :=
  let _ := params
  let _ := points
  .error .notImplementedError

/-- `BrownConradyTransform.undistort`: `raise NotImplementedError`. -/
def BrownConradyTransform.undistort {K : Type} [Field K] (params : List K)
    (points : Vector2 K) : Except PyError (Vector2 K) :=
  let _ := params
  let _ := points
  .error .notImplementedError

/-- `KannalaBrandtK3Transform.distort`: `raise NotImplementedError`. -/
def KannalaBrandtK3Transform.distort {K : Type} [Field K] (params : List K)
    (points : Vector2 K) : Except PyError (Vector2 K) :=
  let _ := params
  let _ := points
  .error .notImplementedError

/-- `KannalaBrandtK3Transform.undistort`: `raise NotImplementedError`. -/
def KannalaBrandtK3Transform.undistort {K : Type} [Field K] (params : List K)
    (points : Vector2 K) : Except PyError (Vector2 K) :=
  let _ := params
  let _ := points
  .error .notImplementedError

/-- C5: with all 8 coefficients zero, `BrownConradyTransform.project`
returns every point unchanged: the radial factor is `1 * (1/1)` and the
tangential terms vanish. -/
theorem BrownConradyTransform.project_zero_params (p : Vector2 ℚ) :
    BrownConradyTransform.project [0, 0, 0, 0, 0, 0, 0, 0] p = p := by
  cases p with
  | mk x y =>
    simp [BrownConradyTransform.project, tindex, Vector2.from_coords]

/-- C6: `distort` and `undistort` on `BrownConradyTransform`, and both
operations on `KannalaBrandtK3Transform`, signal `NotImplementedError` on
every input and never produce a point. -/
theorem distort_undistort_not_implemented (params : List ℚ) (p : Vector2 ℚ) :
    BrownConradyTransform.distort params p = .error .notImplementedError ∧
    BrownConradyTransform.undistort params p = .error .notImplementedError ∧
    KannalaBrandtK3Transform.distort params p = .error .notImplementedError ∧
    KannalaBrandtK3Transform.undistort params p = .error .notImplementedError :=
  ⟨rfl, rfl, rfl, rfl⟩

/-- C7: `AffineTransform.distort` returns `(x*fx + cx, y*fy + cy)` for every
parameter vector, and, for `fx, fy` non-zero, `AffineTransform.undistort`
returns `((u - cx)/fx, (v - cy)/fy)`, reading `[fx, fy, cx, cy]` from the
trailing axis of `params`. -/
theorem AffineTransform.spec_formulas (params : List ℚ) (p : Vector2 ℚ) :
    AffineTransform.distort params p =
      Vector2.from_coords (p.x * tindex params 0 + tindex params 2)
        (p.y * tindex params 1 + tindex params 3) ∧
    (tindex params 0 ≠ 0 → tindex params 1 ≠ 0 →
      AffineTransform.undistort params p =
        Vector2.from_coords ((p.x - tindex params 2) / tindex params 0)
          ((p.y - tindex params 3) / tindex params 1)) :=
  ⟨rfl, fun _ _ => rfl⟩

/-- Witness for C7 at `params = [1, 2, 3, 4]`, `p = (1, 2)`, discharging the
non-zero focal-scale hypotheses of the `undistort` conjunct. -/
theorem AffineTransform.spec_formulas_witness :
    tindex ([1, 2, 3, 4] : List ℚ) 0 ≠ 0 ∧ tindex ([1, 2, 3, 4] : List ℚ) 1 ≠ 0 ∧
    AffineTransform.undistort ([1, 2, 3, 4] : List ℚ) (Vector2.from_coords 1 2) =
      Vector2.from_coords
        ((1 - tindex ([1, 2, 3, 4] : List ℚ) 2) / tindex ([1, 2, 3, 4] : List ℚ) 0)
        ((2 - tindex ([1, 2, 3, 4] : List ℚ) 3) / tindex ([1, 2, 3, 4] : List ℚ) 1) :=
  ⟨by norm_num [tindex], by norm_num [tindex],
   (AffineTransform.spec_formulas [1, 2, 3, 4] (Vector2.from_coords 1 2)).2
     (by norm_num [tindex]) (by norm_num [tindex])⟩

/-- C8: for non-zero `fx` and `fy`, `AffineTransform.undistort` exactly
inverts `AffineTransform.distort` on every point. -/
theorem AffineTransform.undistort_distort (params : List ℚ) (p : Vector2 ℚ)
    (hfx : tindex params 0 ≠ 0) (hfy : tindex params 1 ≠ 0) :
    AffineTransform.undistort params (AffineTransform.distort params p) = p := by
  cases p with
  | mk x y =>
    simp only [AffineTransform.distort, AffineTransform.undistort,
      Vector2.from_coords, Vector2.mk.injEq]
    constructor <;> (field_simp)

/-- Witness for C8 at `params = [1, 2, 3, 4]`, `p = (5, 6)`. -/
theorem AffineTransform.undistort_distort_witness :
    tindex ([1, 2, 3, 4] : List ℚ) 0 ≠ 0 ∧ tindex ([1, 2, 3, 4] : List ℚ) 1 ≠ 0 ∧
    AffineTransform.undistort ([1, 2, 3, 4] : List ℚ)
      (AffineTransform.distort ([1, 2, 3, 4] : List ℚ) (Vector2.from_coords 5 6)) =
      Vector2.from_coords 5 6 :=
  ⟨by norm_num [tindex], by norm_num [tindex],
   AffineTransform.undistort_distort [1, 2, 3, 4] (Vector2.from_coords 5 6)
     (by norm_num [tindex]) (by norm_num [tindex])⟩

/-- C9: on `params = (1, 2, 3, 4)` and `point = (1, 2)`, `distort` yields
`(4, 8)` and `undistort` yields `(-2, -1)`, matching the doctest values. -/
theorem AffineTransform.doctest_values :
    AffineTransform.distort ([1, 2, 3, 4] : List ℚ) (Vector2.from_coords 1 2) =
      Vector2.from_coords 4 8 ∧
    AffineTransform.undistort ([1, 2, 3, 4] : List ℚ) (Vector2.from_coords 1 2) =
      Vector2.from_coords (-2) (-1) := by
  constructor <;>
    norm_num [AffineTransform.distort, AffineTransform.undistort, tindex,
      Vector2.from_coords, Vector2.mk.injEq]

/-- C10: `AffineTransform.distort` and `AffineTransform.undistort` read only
trailing entries 0–3 of `params`: parameter lists agreeing there give
identical outputs, so extra trailing entries never influence the result. -/
theorem AffineTransform.reads_only_first_four (p q : List ℚ) (pt : Vector2 ℚ)
    (h : ∀ i, i < 4 → tindex p i = tindex q i) :
    AffineTransform.distort p pt = AffineTransform.distort q pt ∧
    AffineTransform.undistort p pt = AffineTransform.undistort q pt := by
  have h0 := h 0 (by norm_num)
  have h1 := h 1 (by norm_num)
  have h2 := h 2 (by norm_num)
  have h3 := h 3 (by norm_num)
  constructor <;>
    simp [AffineTransform.distort, AffineTransform.undistort, h0, h1, h2, h3]

/-- Witness for C10: `[1, 2, 3, 4, 99]` and `[1, 2, 3, 4]` agree on the
first four trailing entries and give the same outputs at `(5, 6)`. -/
theorem AffineTransform.reads_only_first_four_witness :
    (∀ i, i < 4 → tindex ([1, 2, 3, 4, 99] : List ℚ) i = tindex ([1, 2, 3, 4] : List ℚ) i) ∧
    AffineTransform.distort ([1, 2, 3, 4, 99] : List ℚ) (Vector2.from_coords 5 6) =
      AffineTransform.distort ([1, 2, 3, 4] : List ℚ) (Vector2.from_coords 5 6) ∧
    AffineTransform.undistort ([1, 2, 3, 4, 99] : List ℚ) (Vector2.from_coords 5 6) =
      AffineTransform.undistort ([1, 2, 3, 4] : List ℚ) (Vector2.from_coords 5 6) :=
  ⟨by intro i hi; interval_cases i <;> rfl,
   (AffineTransform.reads_only_first_four [1, 2, 3, 4, 99] [1, 2, 3, 4]
     (Vector2.from_coords 5 6) (by intro i hi; interval_cases i <;> rfl)).1,
   (AffineTransform.reads_only_first_four [1, 2, 3, 4, 99] [1, 2, 3, 4]
     (Vector2.from_coords 5 6) (by intro i hi; interval_cases i <;> rfl)).2⟩

/-- C4: `BrownConradyTransform.project` returns exactly the spec formula
`(x*radial_num*radial_den + p1*a1 + p2*a2, y*radial_num*radial_den + p1*a3 + p2*a1)`
with coefficients ordered `[k1, k2, p1, p2, k3, k4, k5, k6]`, whenever the
denominator of `radial_den` is non-zero. -/
theorem BrownConradyTransform.project_spec_formula (d : List ℚ) (x y : ℚ)
    (h : 1 + tindex d 5 * (x * x + y * y)
        + tindex d 6 * ((x * x + y * y) * (x * x + y * y))
        + tindex d 7 * (((x * x + y * y) * (x * x + y * y)) * (x * x + y * y)) ≠ 0) :
    BrownConradyTransform.project d (Vector2.from_coords x y) =
      Vector2.from_coords
        (x * (1 + tindex d 0 * (x * x + y * y)
            + tindex d 1 * ((x * x + y * y) * (x * x + y * y))
            + tindex d 4 * (((x * x + y * y) * (x * x + y * y)) * (x * x + y * y)))
          * (1 / (1 + tindex d 5 * (x * x + y * y)
            + tindex d 6 * ((x * x + y * y) * (x * x + y * y))
            + tindex d 7 * (((x * x + y * y) * (x * x + y * y)) * (x * x + y * y))))
          + tindex d 2 * (2 * x * y)
          + tindex d 3 * ((x * x + y * y) + 2 * x * x))
        (y * (1 + tindex d 0 * (x * x + y * y)
            + tindex d 1 * ((x * x + y * y) * (x * x + y * y))
            + tindex d 4 * (((x * x + y * y) * (x * x + y * y)) * (x * x + y * y)))
          * (1 / (1 + tindex d 5 * (x * x + y * y)
            + tindex d 6 * ((x * x + y * y) * (x * x + y * y))
            + tindex d 7 * (((x * x + y * y) * (x * x + y * y)) * (x * x + y * y))))
          + tindex d 2 * ((x * x + y * y) + 2 * y * y)
          + tindex d 3 * (2 * x * y)) :=
  rfl

/-- Witness for C4 at `d = [1, 2, 3, 4, 5, 6, 7, 8]`, point `(1, 1)`:
the denominator is `105` and the projected point is `(787/35, 717/35)`. -/
theorem BrownConradyTransform.project_spec_formula_witness :
    (1 + tindex ([1, 2, 3, 4, 5, 6, 7, 8] : List ℚ) 5 * (1 * 1 + 1 * 1)
        + tindex ([1, 2, 3, 4, 5, 6, 7, 8] : List ℚ) 6 * ((1 * 1 + 1 * 1) * (1 * 1 + 1 * 1))
        + tindex ([1, 2, 3, 4, 5, 6, 7, 8] : List ℚ) 7
          * (((1 * 1 + 1 * 1) * (1 * 1 + 1 * 1)) * (1 * 1 + 1 * 1)) ≠ 0) ∧
    BrownConradyTransform.project ([1, 2, 3, 4, 5, 6, 7, 8] : List ℚ)
      (Vector2.from_coords 1 1) = Vector2.from_coords (787 / 35) (717 / 35) :=
  ⟨by norm_num [tindex],
   (BrownConradyTransform.project_spec_formula [1, 2, 3, 4, 5, 6, 7, 8] 1 1
     (by norm_num [tindex])).trans (by norm_num [tindex, Vector2.from_coords])⟩

/-- C1: the loop body of `BrownConradyTransform.unproject` computes the
residual and the Jacobian entries but performs no Newton update (the
estimate passed to the next iteration is unchanged), and the function,
lacking a `return` statement, yields `none` instead of the final estimate. -/
theorem BrownConradyTransform.unproject_no_update_no_return
    (d : List ℚ) (uv xy : Vector2 ℚ) :
    BrownConradyTransform.unprojectStep d uv xy = xy ∧
    BrownConradyTransform.unproject d uv = none :=
  ⟨rfl, rfl⟩

/-- C3: the round trip `unproject(params, project(params, p))` never
recovers `p` (to any tolerance): `unproject` yields `none` for every
coefficient vector and every point, including all-zero coefficients. -/
theorem BrownConradyTransform.unproject_project_roundtrip_none
    (d : List ℚ) (p : Vector2 ℚ) :
    BrownConradyTransform.unproject d (BrownConradyTransform.project d p) = none :=
  rfl

/-- C2: the Jacobian entries computed in `unproject` are not the analytic
partial derivatives of `project`.  At coefficients `[1, 0, 0, 0, 0, 0, 0, 0]`
(pure `k1` distortion, denominator `1 ≠ 0`) and estimate `(1, 1)`, the code
computes `du_dy = 0` (its `c20 = -c15*c19 + c16*c19*c15` vanishes with
`c15 = 0`), while the analytic mixed partial `∂xd/∂y` there equals `2`. -/
theorem BrownConradyTransform.unprojectJacobian_du_dy_not_partial :
    (BrownConradyTransform.unprojectJacobian ([1, 0, 0, 0, 0, 0, 0, 0] : List ℝ) 1 1).2.1 = 0 ∧
    HasDerivAt
      (fun y : ℝ =>
        (BrownConradyTransform.project ([1, 0, 0, 0, 0, 0, 0, 0] : List ℝ)
          (Vector2.from_coords 1 y)).x) 2 1 := by
  constructor
  · norm_num [BrownConradyTransform.unprojectJacobian, tindex]
  · have h : (fun y : ℝ =>
        (BrownConradyTransform.project ([1, 0, 0, 0, 0, 0, 0, 0] : List ℝ)
          (Vector2.from_coords 1 y)).x) = fun y : ℝ => 2 + y * y := by
      funext y
      show (1 : ℝ) * (1 + 1 * (1 * 1 + y * y) + 0 * _ + 0 * _) * (1 / (1 + 0 * _ + 0 * _ + 0 * _))
          + 0 * (2 * 1 * y) + 0 * ((1 * 1 + y * y) + 2 * 1 * 1) = 2 + y * y
      norm_num
      ring
    rw [h]
    have h2 := ((hasDerivAt_id' (1 : ℝ)).mul (hasDerivAt_id' (1 : ℝ))).const_add (2 : ℝ)
    norm_num at h2
    exact h2
